import Mathlib

/-!
Verification of the task data model and persistence/query core of the
to-do application in `todo_app.py`.

The embedding models the Python source shallowly:

* Python strings are Lean `String` (lists of unicode code points); the
  Python string operations the core uses (`strip`, `lower`, substring
  membership, `split` on a separator) are re-implemented below on
  `List Char` at ASCII fidelity;
* `datetime.strptime(s, "%d-%m-%Y")` is `parseDDMMYYYY`, mirroring
  CPython's `_strptime` regexes (day `3[01]|[12]\d|0[1-9]|[1-9]`, month
  `1[0-2]|0[1-9]|[1-9]`, year exactly four digits) and the calendar
  validation `datetime.__init__` performs (day within the month's length,
  year at least 1);
* `datetime` values are proleptic-Gregorian day ordinals (`toOrdinal`,
  matching `date.toordinal`: 0001-01-01 is day 1); the current instant
  `datetime.now()` is an ordinal plus a flag telling whether any time of
  day has elapsed past midnight, which is all `timedelta.days` can observe;
* the JSON file is modelled at two levels: a typed record level (`Rec`,
  the image of `to_dict`) for well-shaped files, and a raw JSON level
  (`Json` / `FileContent`) for arbitrary file contents, where uncaught
  Python exceptions surface as `Except.error`;
* the one floating-point computation, `int(done / total * 100)`, is
  modelled bit-exactly on integers (`flDiv`, `flMul100`, `floatTrunc`):
  each step rounds to 53 significant bits, nearest ties-to-even, as
  IEEE-754 binary64 does in the normal range — so `int(29 / 100 * 100)`
  is 28 here, as in CPython, not the exact floor 29.
-/

/-! ## Python string primitives (ASCII fidelity) -/

/-- The whitespace set of Python's `str.strip()` restricted to ASCII. -/
def isPySpace (c : Char) : Bool :=
  c = ' ' || c = '\t' || c = '\n' || c = '\x0d' || c = '\x0b' || c = '\x0c'

/-- `str.strip()` on a list of characters. -/
def stripChars (l : List Char) : List Char :=
  ((l.dropWhile isPySpace).reverse.dropWhile isPySpace).reverse

/-- `str.strip()`. -/
def pyStrip (s : String) : String := ⟨stripChars s.data⟩

/-- `str.lower()` on one character (ASCII range). -/
def lowerChar (c : Char) : Char :=
  if 'A' ≤ c && c ≤ 'Z' then Char.ofNat (c.toNat + 32) else c

/-- `str.lower()`. -/
def lowerChars (l : List Char) : List Char := l.map lowerChar

/-- Is `p` a prefix of `l`?  Helper for Python's substring test. -/
def prefixOf : List Char → List Char → Bool
  | [], _ => true
  | _ :: _, [] => false
  | a :: as, b :: bs => a = b && prefixOf as bs

/-- Python's `q in l` substring containment on character lists. -/
def containsSub (l q : List Char) : Bool :=
  match l with
  | [] => q.isEmpty
  | _ :: rest => prefixOf q l || containsSub rest q

/-- Split a character list on `-`, as Python's `str.split("-")` does:
the empty list yields one empty chunk, every dash starts a new chunk. -/
def splitDash : List Char → List (List Char)
  | [] => [[]]
  | c :: rest =>
    if c = '-' then [] :: splitDash rest
    else
      match splitDash rest with
      | [] => [[c]]
      | g :: gs => (c :: g) :: gs

/-- The decimal value of a digit string (callers check `allDigits` first). -/
def digitsToNat (l : List Char) : Nat :=
  l.foldl (fun n c => n * 10 + (c.toNat - '0'.toNat)) 0

/-- All characters are ASCII decimal digits. -/
def allDigits (l : List Char) : Bool := l.all Char.isDigit

/-! ## Calendar arithmetic (proleptic Gregorian, as Python's `datetime`) -/

/-- Gregorian leap-year rule. -/
def isLeapYear (y : Nat) : Bool :=
  y % 4 = 0 && (y % 100 ≠ 0 || y % 400 = 0)

/-- Length of month `m` (1–12) of year `y`. -/
def daysInMonth (y m : Nat) : Nat :=
  if m = 2 then (if isLeapYear y then 29 else 28)
  else if m = 4 ∨ m = 6 ∨ m = 9 ∨ m = 11 then 30
  else 31

/-- `datetime.strptime(s, "%d-%m-%Y")` followed by the date validation
`datetime` itself performs.  Returns `some (day, month, year)` exactly when
CPython's parse succeeds: three dash-separated all-digit chunks, the day
one or two digits with value 1–31 and at most the month's length, the
month one or two digits with value 1–12, the year exactly four digits with
value at least 1. -/
def parseDDMMYYYY (s : String) : Option (Nat × Nat × Nat) :=
  match splitDash s.data with
  | [ds, ms, ys] =>
    if allDigits ds ∧ 1 ≤ ds.length ∧ ds.length ≤ 2
        ∧ allDigits ms ∧ 1 ≤ ms.length ∧ ms.length ≤ 2
        ∧ allDigits ys ∧ ys.length = 4 then
      let d := digitsToNat ds
      let m := digitsToNat ms
      let y := digitsToNat ys
      if 1 ≤ d ∧ d ≤ 31 ∧ 1 ≤ m ∧ m ≤ 12 ∧ 1 ≤ y ∧ d ≤ daysInMonth y m then
        some (d, m, y)
      else none
    else none
  | _ => none

/-! ## Data model: `DeadlineTask` (the only variant the app constructs) -/

/-- In-memory shape of `DeadlineTask` (`Task` plus the `deadline` field).
`completed` starts `false` and `created_date` is stamped by the
constructor; both are set in `Task.__init__`. -/
structure DeadlineTask where
  id : Int
  title : String
  description : String
  category : String
  completed : Bool
  created_date : String
  deadline : String
deriving DecidableEq, Repr

/-- One persisted JSON record, at the typed level: the keys `to_dict`
writes.  `load_tasks` reads `id`, `title` and `description` directly and
uses `dict.get` with a default for `deadline`, `category` and `completed`,
so those three are optional here; `created_date` and `ty` (the `"type"`
key) are carried but never read back. -/
structure Rec where
  id : Int
  title : String
  description : String
  category : Option String
  completed : Option Bool
  created_date : Option String
  deadline : Option String
  ty : Option String
deriving DecidableEq, Repr

/-- `Task.to_dict`: every base field plus the discriminant `"Task"`. -/
def to_dict_base (t : DeadlineTask) : Rec :=
  { id := t.id, title := t.title, description := t.description,
    category := some t.category, completed := some t.completed,
    created_date := some t.created_date, deadline := none,
    ty := some "Task" }

/-- `DeadlineTask.to_dict`: the base record with `deadline` added and the
discriminant overwritten to `"DeadlineTask"`. -/
def to_dict (t : DeadlineTask) : Rec :=
  { to_dict_base t with deadline := some t.deadline, ty := some "DeadlineTask" }

/-- `TaskManager.save_tasks`: the sequence of records written to the file. -/
def save_tasks (ts : List DeadlineTask) : List Rec := ts.map to_dict

/-- `TaskManager.load_tasks` on a well-shaped file (a sequence of records
that have `id`, `title` and `description`): each record is rebuilt as a
`DeadlineTask` whose `created_date` is freshly stamped with `now` by
`Task.__init__`; missing `deadline`/`category`/`completed` fall back to
`""`/`"Umum"`/`false`. -/
def load_tasks (data : List Rec) (now : String) : List DeadlineTask :=
  data.map fun item =>
    { id := item.id, title := item.title, description := item.description,
      category := item.category.getD "Umum",
      completed := item.completed.getD false,
      created_date := now,
      deadline := item.deadline.getD "" }

/-! ## Raw JSON model of the persisted file -/

/-- A JSON value as `json.load` yields it (numbers restricted to the
integers the app ever writes). -/
inductive Json where
  | null : Json
  | bool (b : Bool) : Json
  | num (n : Int) : Json
  | str (s : String) : Json
  | arr (elems : List Json) : Json
  | obj (fields : List (String × Json)) : Json
deriving Repr

/-- The Python exceptions `load_tasks` can let escape. -/
inductive PyErr where
  | keyError (k : String) : PyErr
  | typeError : PyErr
deriving DecidableEq, Repr

/-- What `open` + `json.load` can hand the loader: no file at all, text
that raises `json.JSONDecodeError`, or a parsed JSON value. -/
inductive FileContent where
  | missing : FileContent
  | notJson : FileContent
  | value (v : Json) : FileContent

/-- Dictionary lookup; `json.load` keeps the last of duplicate keys, so
the last binding wins. -/
def lookupLast (fields : List (String × Json)) (k : String) : Option Json :=
  (fields.reverse.find? fun p => p.1 = k).map (·.2)

/-- Python `item[k]` for a string key `k`: `KeyError` on a dict without
the key, `TypeError` on any non-dict JSON value. -/
def getItem (v : Json) (k : String) : Except PyErr Json :=
  match v with
  | .obj fields =>
    match lookupLast fields k with
    | some x => .ok x
    | none => .error (.keyError k)
  | _ => .error .typeError

/-- Python `item.get(k, dflt)`; only dicts have `.get` (unreachable for
other values here, since a bare `item[...]` access has already failed). -/
def dictGet (v : Json) (k : String) (dflt : Json) : Except PyErr Json :=
  match v with
  | .obj fields => .ok ((lookupLast fields k).getD dflt)
  | _ => .error .typeError

/-- Python `for item in data` over a JSON value: a list yields its
elements, a dict its keys, a string its characters; other values raise
`TypeError`. -/
def iterateJson (v : Json) : Except PyErr (List Json) :=
  match v with
  | .arr xs => .ok xs
  | .obj fields => .ok (fields.map fun p => Json.str p.1)
  | .str s => .ok (s.data.map fun c => Json.str (String.singleton c))
  | _ => .error .typeError

/-- A task as loaded from raw JSON: Python is dynamically typed, so the
fields taken from the file keep whatever JSON value was there;
`created_date` is the string `Task.__init__` stamps. -/
structure RawTask where
  id : Json
  title : Json
  description : Json
  deadline : Json
  category : Json
  completed : Json
  created_date : String
deriving Repr

/-- One loop iteration of `load_tasks`: the subscript accesses and
`dict.get` calls in source order, then the `DeadlineTask` construction
(which stamps `created_date := now`) and the `_completed` overwrite from
the record (`item.get("completed", False)`). -/
def loadItemJson (item : Json) (now : String) : Except PyErr RawTask := do
  let i ← getItem item "id"
  let t ← getItem item "title"
  let d ← getItem item "description"
  let dl ← dictGet item "deadline" (.str "")
  let c ← dictGet item "category" (.str "Umum")
  let comp ← dictGet item "completed" (.bool false)
  return ⟨i, t, d, dl, c, comp, now⟩

/-- The `for item in data` loop of `load_tasks`: each record is rebuilt
in turn and an exception on any record aborts the whole load. -/
def loadListJson (items : List Json) (now : String) :
    Except PyErr (List RawTask) :=
  match items with
  | [] => .ok []
  | item :: rest => do
    let t ← loadItemJson item now
    let ts ← loadListJson rest now
    return t :: ts

/-- `TaskManager.load_tasks` on arbitrary file content.  A missing file
(`FileNotFoundError`) and undecodable text (`json.JSONDecodeError`) are
caught and leave the collection empty; any other exception raised while
rebuilding the tasks propagates to the caller (`TaskManager.__init__`),
surfacing here as `Except.error`. -/
def load_tasks_json (content : FileContent) (now : String) :
    Except PyErr (List RawTask) :=
  match content with
  | .missing => .ok []
  | .notJson => .ok []
  | .value v => do
    let items ← iterateJson v
    loadListJson items now

/-! ## Store mutation (`TaskManager`) and the presentation-layer logic -/

/-- `TaskManager.delete_task`: remove the task at `index` when
`0 <= index < len(tasks)`, otherwise a silent no-op. -/
def delete_task (ts : List DeadlineTask) (index : Int) : List DeadlineTask :=
  if 0 ≤ index ∧ index < (ts.length : Int) then ts.eraseIdx index.toNat else ts

/-- Flip `completed` of the task at position `n` (`Task.toggle_status`
applied through `self._tasks[index]`). -/
def toggleAt : List DeadlineTask → Nat → List DeadlineTask
  | [], _ => []
  | t :: ts, 0 => { t with completed := !t.completed } :: ts
  | t :: ts, n + 1 => t :: toggleAt ts n

/-- `TaskManager.toggle_task`: toggle at `index` when
`0 <= index < len(tasks)`, otherwise a silent no-op. -/
def toggle_task (ts : List DeadlineTask) (index : Int) : List DeadlineTask :=
  if 0 ≤ index ∧ index < (ts.length : Int) then toggleAt ts index.toNat else ts

/-- Python's `max(l, default=d)`: the greatest element of a non-empty
list, and `d` only when the list is empty. -/
def pyMax (l : List Int) (d : Int) : Int :=
  match l with
  | [] => d
  | x :: xs => xs.foldl max x

/-- The id `TodoApp._add_task` assigns:
`max([t.task_id for t in tasks], default=0) + 1`. -/
def next_task_id (ts : List DeadlineTask) : Int :=
  pyMax (ts.map (·.id)) 0 + 1

/-- `TodoApp._add_task` up to its observable effect on the store: the
collected inputs are stripped, the three validation checks run in source
order (empty title, empty deadline, `strptime` failure) and each failure
shows a warning and creates nothing (`none`); on success a `DeadlineTask`
with the next id and `completed = false` is appended. -/
def add_task_gui (ts : List DeadlineTask)
    (title description category deadline now : String) :
    Option (List DeadlineTask) :=
  if pyStrip title = "" then none
  else if pyStrip deadline = "" then none
  else match parseDDMMYYYY (pyStrip deadline) with
    | none => none
    | some _ =>
      some (ts ++ [{ id := next_task_id ts, title := pyStrip title,
                     description := pyStrip description,
                     category := category, completed := false,
                     created_date := now, deadline := pyStrip deadline }])

/-- The search text combined per task in `TodoApp._refresh_list`:
`f"{task.title} {task.description} {task.category}".lower()`. -/
def combinedText (t : DeadlineTask) : List Char :=
  lowerChars (t.title.data ++ ' ' :: (t.description.data ++ ' ' :: t.category.data))

/-- The filtering `TodoApp._refresh_list` applies while rendering: the
search box text is stripped and lowercased, and a task at position `idx`
is kept unless the query is non-empty and not a substring of the task's
combined lowercased text. -/
def queryTasks (ts : List DeadlineTask) (search : String) :
    List (Nat × DeadlineTask) :=
  let q := lowerChars (stripChars search.data)
  ts.enum.filter fun p => q.isEmpty || containsSub (combinedText p.2) q

/-- Number of binary digits of `n` (0 for 0); the fuel argument makes the
recursion structural, and `n` halvings always suffice. -/
def bitsFuel : Nat → Nat → Nat
  | 0, _ => 0
  | fuel + 1, n => if n = 0 then 0 else bitsFuel fuel (n / 2) + 1

/-- Number of binary digits of `n` (0 for 0). -/
def natBits (n : Nat) : Nat := bitsFuel n n

/-- Round `a / b` (for `b > 0`) to the nearest integer, ties to even. -/
def rndHalfEvenDiv (a b : Nat) : Nat :=
  let q := a / b
  let r := a % b
  if 2 * r < b then q
  else if b < 2 * r then q + 1
  else if q % 2 = 0 then q else q + 1

/-- The binary64 value of `a / b` for `1 ≤ a` and `1 ≤ b`, as a pair
`(m, e)` standing for `m * 2 ^ e`: the quotient is scaled into
`[2^52, 2^53)` (one rescale when the first estimate carries 54 bits) and
rounded to nearest, ties to even — IEEE-754 division in the normal
range. -/
def flDiv (a b : Nat) : Nat × Int :=
  let t : Int := 53 - ((natBits a : Int) - (natBits b : Int))
  let scaled : Nat × Nat :=
    if 0 ≤ t then (a * 2 ^ t.toNat, b) else (a, b * 2 ^ (-t).toNat)
  if scaled.2 * 2 ^ 53 ≤ scaled.1 then
    let u : Int := t - 1
    let sc : Nat × Nat :=
      if 0 ≤ u then (a * 2 ^ u.toNat, b) else (a, b * 2 ^ (-u).toNat)
    (rndHalfEvenDiv sc.1 sc.2, -u)
  else
    (rndHalfEvenDiv scaled.1 scaled.2, -t)

/-- The binary64 product of the double `m * 2 ^ e` with the exact double
100: the exact significand product, rounded back to 53 significant bits
(nearest, ties to even). -/
def flMul100 (m : Nat) (e : Int) : Nat × Int :=
  let M := m * 100
  let k := natBits M
  if k ≤ 53 then (M, e)
  else (rndHalfEvenDiv M (2 ^ (k - 53)), e + ((k - 53 : Nat) : Int))

/-- Python `int()` of the non-negative double `m * 2 ^ e`. -/
def floatTrunc (m : Nat) (e : Int) : Nat :=
  if 0 ≤ e then m * 2 ^ e.toNat else m / 2 ^ (-e).toNat

/-- `int(done / total * 100)` as CPython computes it for `total > 0`:
`0 / total` is exactly `0.0`, otherwise divide, multiply by 100 and
truncate, each step in double precision. -/
def pyFloatPercent (done total : Nat) : Nat :=
  if done = 0 then 0
  else
    let d := flDiv done total
    let p := flMul100 d.1 d.2
    floatTrunc p.1 p.2

/-- The progress numbers `TodoApp._refresh_list` renders:
`(total, done, pending, percentage)` with
`percentage = int(done / total * 100) if total > 0 else 0`, the
percentage evaluated in double precision (`pyFloatPercent`). -/
def progress_summary (ts : List DeadlineTask) : Nat × Nat × Nat × Nat :=
  let total := ts.length
  let done := (ts.filter (·.completed)).length
  let pending := total - done
  let percentage := if 0 < total then pyFloatPercent done total else 0
  (total, done, pending, percentage)

/-- A store of 100 tasks with 29 completed: the input on which the
truncated double `int(29 / 100 * 100)` falls one below the exact floor. -/
def hundredStore : List DeadlineTask :=
  List.replicate 29 ⟨1, "a", "", "Umum", true, "2026-10-12", "25-12-2026"⟩
    ++ List.replicate 71 ⟨2, "b", "", "Umum", false, "2026-10-12", "25-12-2026"⟩

/-! ## Operation sequences against the store -/

/-- One user-level mutating operation routed to the store. -/
inductive Op where
  | add (title description category deadline : String) : Op
  | delete (i : Int) : Op
  | toggle (i : Int) : Op

/-- Apply one operation: a rejected add leaves the store unchanged. -/
def applyOp (now : String) (ts : List DeadlineTask) : Op → List DeadlineTask
  | .add t d c dl => (add_task_gui ts t d c dl now).getD ts
  | .delete i => delete_task ts i
  | .toggle i => toggle_task ts i

/-- Run a sequence of operations from the empty store a fresh
`TaskManager` starts with. -/
def runOps (now : String) (ops : List Op) : List DeadlineTask :=
  ops.foldl (applyOp now) []

/-- The ids currently present, in store order. -/
def storeIds (ts : List DeadlineTask) : List Int := ts.map (·.id)

/-! ## Helper lemmas -/

theorem storeIds_toggleAt (ts : List DeadlineTask) (n : Nat) :
    storeIds (toggleAt ts n) = storeIds ts := by
  induction ts generalizing n with
  | nil => rfl
  | cons h t ih =>
    cases n with
    | zero => simp [toggleAt, storeIds]
    | succ m => simpa [toggleAt, storeIds] using ih m

theorem le_foldl_max (a : Int) (l : List Int) : a ≤ l.foldl max a := by
  induction l generalizing a with
  | nil => exact le_refl a
  | cons b t ih => exact le_trans (le_max_left a b) (ih (max a b))

theorem mem_le_foldl_max (x a : Int) (l : List Int) (hx : x ∈ l) :
    x ≤ l.foldl max a := by
  induction l generalizing a with
  | nil => cases hx
  | cons b t ih =>
    rcases List.mem_cons.mp hx with rfl | h
    · exact le_trans (le_max_right a x) (le_foldl_max _ t)
    · exact ih _ h

theorem mem_le_pyMax (x : Int) (l : List Int) (d : Int) (hx : x ∈ l) :
    x ≤ pyMax l d := by
  cases l with
  | nil => cases hx
  | cons b t =>
    rcases List.mem_cons.mp hx with rfl | h
    · exact le_foldl_max x t
    · exact mem_le_foldl_max x b t h

theorem foldl_max_le (a m : Int) (l : List Int) (ha : a ≤ m)
    (h : ∀ x ∈ l, x ≤ m) : l.foldl max a ≤ m := by
  induction l generalizing a with
  | nil => exact ha
  | cons b t ih =>
    exact ih (max a b) (max_le ha (h b (List.mem_cons_self b t)))
      (fun x hx => h x (List.mem_cons_of_mem b hx))

theorem pyMax_eq_of_greatest (l : List Int) (d m : Int) (hm : m ∈ l)
    (hub : ∀ x ∈ l, x ≤ m) : pyMax l d = m := by
  cases l with
  | nil => cases hm
  | cons b t =>
    exact le_antisymm
      (foldl_max_le b m t (hub b (List.mem_cons_self b t))
        (fun x hx => hub x (List.mem_cons_of_mem b hx)))
      (mem_le_pyMax m (b :: t) d hm)

theorem pairwise_ids_append_next (ts : List DeadlineTask)
    (h : (storeIds ts).Pairwise (· < ·)) (t : DeadlineTask)
    (ht : t.id = next_task_id ts) :
    (storeIds (ts ++ [t])).Pairwise (· < ·) := by
  have : storeIds (ts ++ [t]) = storeIds ts ++ [t.id] := by
    simp [storeIds]
  rw [this, List.pairwise_append]
  refine ⟨h, List.pairwise_singleton _ _, ?_⟩
  intro x hx y hy
  rcases List.mem_singleton.mp hy with rfl
  have hle : x ≤ pyMax (storeIds ts) 0 := mem_le_pyMax x _ 0 hx
  have : t.id = pyMax (storeIds ts) 0 + 1 := ht
  omega

theorem pairwise_ids_applyOp (now : String) (ts : List DeadlineTask) (op : Op)
    (h : (storeIds ts).Pairwise (· < ·)) :
    (storeIds (applyOp now ts op)).Pairwise (· < ·) := by
  cases op with
  | add ti d c dl =>
    show (storeIds ((add_task_gui ts ti d c dl now).getD ts)).Pairwise (· < ·)
    unfold add_task_gui
    split
    · exact h
    · split
      · exact h
      · split
        · exact h
        · exact pairwise_ids_append_next ts h _ rfl
  | delete i =>
    show (storeIds (delete_task ts i)).Pairwise (· < ·)
    unfold delete_task
    split
    · have hsub : List.Sublist (ts.eraseIdx i.toNat) ts := List.eraseIdx_sublist ts i.toNat
      exact h.sublist (hsub.map _)
    · exact h
  | toggle i =>
    show (storeIds (toggle_task ts i)).Pairwise (· < ·)
    unfold toggle_task
    split
    · rw [storeIds_toggleAt]; exact h
    · exact h

/-! ## The claims -/

/-- C1 (confirmed).  Persistence round-trip: saving a store's tasks and
loading the written records back yields a task sequence of the same
length whose ids, titles, deadlines and completion flags agree with the
original at every position (order preserved). -/
theorem c1_round_trip (ts : List DeadlineTask) (now : String) :
    (load_tasks (save_tasks ts) now).length = ts.length ∧
    (load_tasks (save_tasks ts) now).map (·.id) = ts.map (·.id) ∧
    (load_tasks (save_tasks ts) now).map (·.title) = ts.map (·.title) ∧
    (load_tasks (save_tasks ts) now).map (·.deadline) = ts.map (·.deadline) ∧
    (load_tasks (save_tasks ts) now).map (·.completed) = ts.map (·.completed) := by
  induction ts with
  | nil => simp [load_tasks, save_tasks]
  | cons h t ih => simp [load_tasks, save_tasks, to_dict, to_dict_base]

/-- C10 (confirmed).  Loading never restores the persisted
`created_date`: every reconstructed task is stamped with the load-time
date, and the result is unchanged when every record's stored
`created_date` and `type` values are overwritten arbitrarily; moreover
every reconstructed task serializes as the deadline-bearing variant
(`"DeadlineTask"`), since `load_tasks` rebuilds each record as a
`DeadlineTask` unconditionally. -/
theorem c10_load_ignores_stored_metadata (data : List Rec) (now c ty0 : String) :
    (∀ tk ∈ load_tasks data now, tk.created_date = now) ∧
    load_tasks (data.map fun r => { r with created_date := some c, ty := some ty0 }) now
      = load_tasks data now ∧
    (∀ tk ∈ load_tasks data now, (to_dict tk).ty = some "DeadlineTask") := by
  refine ⟨?_, ?_, ?_⟩
  · intro tk htk
    rcases List.mem_map.mp htk with ⟨r, _, rfl⟩
    rfl
  · induction data with
    | nil => rfl
    | cons r rest ih => simp [load_tasks]
  · intro tk htk
    rcases List.mem_map.mp htk with ⟨r, _, rfl⟩
    rfl

/-- C2, counterexample.  A file holding the well-formed JSON text `[{}]`
(one record lacking the required fields) is not a well-formed persisted
task sequence, yet loading it raises `KeyError` to the caller instead of
recovering with an empty task sequence: only `FileNotFoundError` and
`json.JSONDecodeError` are caught. -/
theorem c2_counterexample :
    load_tasks_json (.value (.arr [.obj []])) "2026-10-12"
      = .error (.keyError "id") := rfl

/-- C2 (corrected).  The recovery the code does implement: a missing file
and syntactically undecodable content are caught and yield an empty task
sequence without raising; other malformed shapes raise — a JSON number is
not iterable (`TypeError`), and a record sequence whose first record
lacks the `"id"` key raises `KeyError`. -/
theorem c2_amended (now : String) :
    load_tasks_json .missing now = .ok [] ∧
    load_tasks_json .notJson now = .ok [] ∧
    (∀ n : Int, load_tasks_json (.value (.num n)) now = .error .typeError) ∧
    ∀ fields, lookupLast fields "id" = none →
      load_tasks_json (.value (.arr [.obj fields])) now
        = .error (.keyError "id") := by
  refine ⟨rfl, rfl, fun n => rfl, ?_⟩
  intro fields h
  simp [load_tasks_json, iterateJson, loadListJson, loadItemJson, getItem, h,
    Bind.bind, Except.bind]

/-- C4, counterexample.  Ids are reused after deletion: starting from the
empty store, two adds assign ids 1 and 2, deleting position 1 removes the
task with id 2, and the next add assigns id 2 again (the scheme is
`max(current ids) + 1`, which forgets deleted maxima). -/
theorem c4_counterexample :
    storeIds (runOps "2026-10-12"
      [.add "a" "" "Umum" "25-12-2026", .add "b" "" "Umum" "25-12-2026"])
      = [1, 2] ∧
    storeIds (runOps "2026-10-12"
      [.add "a" "" "Umum" "25-12-2026", .add "b" "" "Umum" "25-12-2026",
       .delete 1])
      = [1] ∧
    storeIds (runOps "2026-10-12"
      [.add "a" "" "Umum" "25-12-2026", .add "b" "" "Umum" "25-12-2026",
       .delete 1, .add "c" "" "Umum" "25-12-2026"])
      = [1, 2] := by
  refine ⟨by decide, by decide, by decide⟩

/-- C4 (amended, proved).  What does hold of id assignment over every
sequence of operations from the empty store: a new task's id always
exceeds every id present at creation time, so the ids of the live tasks
are strictly increasing in insertion order and in particular pairwise
distinct; an id removed by `delete` can however be assigned again when it
exceeds all remaining ids (see the counterexample). -/
theorem c4_amended (now : String) (ops : List Op) :
    (storeIds (runOps now ops)).Pairwise (· < ·) := by
  suffices h : ∀ s, (storeIds s).Pairwise (· < ·) →
      (storeIds (ops.foldl (applyOp now) s)).Pairwise (· < ·) by
    exact h [] (by simp [storeIds])
  induction ops with
  | nil => intro s hs; exact hs
  | cons op rest ih =>
    intro s hs
    exact ih _ (pairwise_ids_applyOp now s op hs)

/-- C7 (confirmed).  Id assignment: the id `_add_task` computes
(`max([t.task_id for t in tasks], default=0) + 1`) is 1 on the empty
store, and `m + 1` whenever `m` is the maximum id present. -/
theorem c7_id_assignment (ts : List DeadlineTask) :
    (ts = [] → next_task_id ts = 1) ∧
    ∀ m ∈ storeIds ts, (∀ x ∈ storeIds ts, x ≤ m) → next_task_id ts = m + 1 := by
  constructor
  · rintro rfl; rfl
  · intro m hm hub
    show pyMax (storeIds ts) 0 + 1 = m + 1
    rw [pyMax_eq_of_greatest (storeIds ts) 0 m hm hub]

/-- C7 witness: on a store holding one task with id 5, the next id is 6. -/
theorem c7_id_assignment_witness :
    next_task_id [⟨5, "a", "", "Umum", false, "2026-10-12", "25-12-2026"⟩]
      = 5 + 1 :=
  (c7_id_assignment [⟨5, "a", "", "Umum", false, "2026-10-12", "25-12-2026"⟩]).2
    5 (by decide) (by decide)

/-- C8 (confirmed).  Bounds safety: a position outside `[0, count)` makes
both `delete_task` and `toggle_task` leave the task sequence unchanged
(the guard `0 <= index < len(tasks)` fails and nothing runs, so nothing
is raised either). -/
theorem c8_bounds_safety (ts : List DeadlineTask) (i : Int)
    (h : ¬ (0 ≤ i ∧ i < (ts.length : Int))) :
    delete_task ts i = ts ∧ toggle_task ts i = ts := by
  unfold delete_task toggle_task
  rw [if_neg h, if_neg h]
  exact ⟨rfl, rfl⟩

/-- C8 witness: `delete(-1)` and `toggle(-1)` on a one-task store leave
it unchanged. -/
theorem c8_bounds_safety_witness :
    delete_task [⟨1, "a", "", "Umum", false, "2026-10-12", "25-12-2026"⟩] (-1)
      = [⟨1, "a", "", "Umum", false, "2026-10-12", "25-12-2026"⟩] ∧
    toggle_task [⟨1, "a", "", "Umum", false, "2026-10-12", "25-12-2026"⟩] (-1)
      = [⟨1, "a", "", "Umum", false, "2026-10-12", "25-12-2026"⟩] :=
  c8_bounds_safety [⟨1, "a", "", "Umum", false, "2026-10-12", "25-12-2026"⟩]
    (-1) (by decide)

/-- C3 (confirmed).  Construction validation, as `_add_task` performs it
on the collected (whitespace-stripped) inputs: creation is rejected
exactly when the stripped title is empty, the stripped deadline is empty,
or the stripped deadline does not parse as a valid calendar date in
DD-MM-YYYY format; a rejection leaves the store unchanged (no record is
created), and a successful creation appends one task with
`completed = false`. -/
theorem c3_validation (title description category deadline now : String)
    (ts : List DeadlineTask) :
    (add_task_gui ts title description category deadline now = none ↔
      pyStrip title = "" ∨ pyStrip deadline = "" ∨
        parseDDMMYYYY (pyStrip deadline) = none) ∧
    (∀ r, add_task_gui ts title description category deadline now = some r →
      ∃ t, r = ts ++ [t] ∧ t.completed = false) ∧
    (add_task_gui ts title description category deadline now = none →
      applyOp now ts (.add title description category deadline) = ts) := by
  refine ⟨?_, ?_, ?_⟩
  · by_cases h1 : pyStrip title = ""
    · simp [add_task_gui, h1]
    · by_cases h2 : pyStrip deadline = ""
      · simp [add_task_gui, h1, h2]
      · cases hp : parseDDMMYYYY (pyStrip deadline) with
        | none => simp [add_task_gui, h1, h2, hp]
        | some v => simp [add_task_gui, h1, h2, hp]
  · intro r hr
    by_cases h1 : pyStrip title = ""
    · simp [add_task_gui, h1] at hr
    · by_cases h2 : pyStrip deadline = ""
      · simp [add_task_gui, h1, h2] at hr
      · cases hp : parseDDMMYYYY (pyStrip deadline) with
        | none => simp [add_task_gui, h1, h2, hp] at hr
        | some v =>
          simp [add_task_gui, h1, h2, hp] at hr
          exact ⟨_, hr.symm, rfl⟩
  · intro h
    simp [applyOp, h]

/-- C5, counterexample.  The percentage is truncated, not rounded: on a
store of 3 tasks with 2 completed the double-precision evaluation of
`done / total * 100` is `66.66666666666666`, which `int()` truncates to
66, while `round(done / total * 100)` would be 67 (the value is not a
half, so Python's round agrees with the mathematical one used here). -/
theorem c5_counterexample :
    progress_summary
      [⟨1, "a", "", "Umum", true, "2026-10-12", "25-12-2026"⟩,
       ⟨2, "b", "", "Umum", true, "2026-10-12", "25-12-2026"⟩,
       ⟨3, "c", "", "Umum", false, "2026-10-12", "25-12-2026"⟩]
      = (3, 2, 1, 66) ∧
    round ((2 : ℚ) / 3 * 100) = 67 := by
  constructor
  · decide
  · norm_num [round_eq]

/-- C5 (amended, proved).  Progress arithmetic: `total` is the number of
tasks, `done` the number of completed tasks, `pending = total - done`;
`percent` is `int(done / total * 100)` evaluated in double precision —
`int()` truncates rather than rounds — and is 0 when `total = 0` or
`done = 0` (where the computation is exact).  The claim's instance of 4
tasks with 1 completed does yield `(4, 1, 3, 25)`; but the truncated
double can also fall one below the exact value of `done / total * 100`:
100 tasks with 29 completed show 28 percent, although the exact floor of
`29 * 100 / 100` is 29. -/
theorem c5_amended (ts : List DeadlineTask) :
    (progress_summary ts).1 = ts.length ∧
    (progress_summary ts).2.1 = (ts.filter (·.completed)).length ∧
    (progress_summary ts).2.2.1
      = ts.length - (ts.filter (·.completed)).length ∧
    (ts.length = 0 → (progress_summary ts).2.2.2 = 0) ∧
    ((ts.filter (·.completed)).length = 0 → (progress_summary ts).2.2.2 = 0) ∧
    progress_summary
      [⟨1, "a", "", "Umum", true, "2026-10-12", "25-12-2026"⟩,
       ⟨2, "b", "", "Umum", false, "2026-10-12", "25-12-2026"⟩,
       ⟨3, "c", "", "Umum", false, "2026-10-12", "25-12-2026"⟩,
       ⟨4, "d", "", "Umum", false, "2026-10-12", "25-12-2026"⟩]
      = (4, 1, 3, 25) ∧
    progress_summary hundredStore = (100, 29, 71, 28) ∧
    (hundredStore.filter (·.completed)).length * 100 / hundredStore.length
      = 29 := by
  refine ⟨rfl, rfl, rfl, ?_, ?_, by decide, by decide, by decide⟩
  · intro h0
    simp [progress_summary, h0]
  · intro hd
    simp [progress_summary, pyFloatPercent, hd]

/-- C6, counterexample.  The filter matches across field boundaries: the
search runs over the space-joined string `f"{title} {description}
{category}"`, so the task with title `"ab"`, description `"cd"` and
category `"e"` is returned for the query `"b c"` although none of its
three fields contains `"b c"` (case-insensitively). -/
theorem c6_counterexample :
    queryTasks [⟨1, "ab", "cd", "e", false, "2026-10-12", "25-12-2026"⟩] "b c"
      = [(0, ⟨1, "ab", "cd", "e", false, "2026-10-12", "25-12-2026"⟩)] ∧
    containsSub (lowerChars "ab".data) (lowerChars "b c".data) = false ∧
    containsSub (lowerChars "cd".data) (lowerChars "b c".data) = false ∧
    containsSub (lowerChars "e".data) (lowerChars "b c".data) = false := by
  refine ⟨by decide, by decide, by decide, by decide⟩

/-- C6 (amended, proved).  Filter correctness as the code implements it:
a pair `(i, t)` is returned exactly when it is an entry of the enumerated
task sequence and the query — stripped and lowercased — is empty or a
substring of the task's space-joined lowercased
`title description category` text; the result is a subsequence of the
enumeration (original positions and order preserved), and the empty query
returns every task in original order. -/
theorem c6_amended (ts : List DeadlineTask) (x : String) :
    (∀ i t, (i, t) ∈ queryTasks ts x ↔
      (i, t) ∈ ts.enum ∧
        (lowerChars (stripChars x.data) = [] ∨
         containsSub (combinedText t) (lowerChars (stripChars x.data)) = true)) ∧
    List.Sublist (queryTasks ts x) ts.enum ∧
    queryTasks ts "" = ts.enum := by
  refine ⟨?_, ?_, ?_⟩
  · intro i t
    simp [queryTasks, List.mem_filter, List.isEmpty_iff]
  · exact List.filter_sublist _
  · simp [queryTasks, stripChars, lowerChars]
